import Mathlib

/-!
Verification of the smart terminal status renderer
(ui/terminal/smart_status.go).

The renderer state is embedded shallowly: the output sink is the list of
bytes written so far, strings are byte lists (Go strings are byte
sequences), and the SIGWINCH notification channel is modelled by a flag
recording whether it is still open.  Closing an already-closed channel
panics in Go; operations that can panic return an Except value, where
an error value stands for the panic.

The formatter, the progress counts, the action records and the message
levels live in external packages (android/soong/ui/status); they are
modelled from the spec as opaque data plus arbitrary formatting
functions, passed to each operation explicitly (the Go struct stores the
formatter once at construction and never mutates it).
-/

namespace SmartStatus

/-- A Go string, viewed as its byte sequence. -/
abbrev Bytes := List Nat

/-- The newline byte. -/
def NL : Nat := 10

/-- Carriage return. -/
def CR : Bytes := [13]

/-- Clear to end of line escape sequence ESC [ K. -/
def clearEOL : Bytes := [27, 91, 75]

/-- Bold on escape sequence ESC [ 1 m. -/
def boldOn : Bytes := [27, 91, 49, 109]

/-- Bold off escape sequence ESC [ 0 m. -/
def boldOff : Bytes := [27, 91, 48, 109]

/-- Modelled from the spec: progress counts from the external status
package; the spec describes a progress marker built from a done count
and a total count. Only the formatting function ever consumes them. -/
structure Counts where
  done : Nat
  total : Nat
deriving DecidableEq

/-- Modelled from the spec: a started action, carrying a description and
a raw command string, as used by StartAction. -/
structure Action where
  Description : Bytes
  Command : Bytes
deriving DecidableEq

/-- Modelled from the spec: an action result, carrying a description, a
raw command string, and the auxiliary output block consumed by the
formatter. -/
structure ActionResult where
  Description : Bytes
  Command : Bytes
  Output : Bytes
deriving DecidableEq

/-- Modelled from the spec: the external formatter collaborator.  Given
a severity and text it returns a display string; given progress counts a
short progress string; given an action result either an empty string or
a block of auxiliary output. -/
structure Formatter where
  message : Int → Bytes → Bytes
  progress : Counts → Bytes
  result : ActionResult → Bytes

/-- Modelled from the spec: the configured status threshold from the
external status package (status.StatusLvl); message severities are
integers compared against it. -/
def StatusLvl : Int := 1

/-- The renderer state of smartStatusOutput: the bytes written to the
sink so far, the haveBlankLine flag, the last known terminal width, and
whether the sigwinch channel is still open. -/
structure smartStatusOutput where
  out : Bytes
  haveBlankLine : Bool
  termWidth : Int
  sigwinchOpen : Bool
deriving DecidableEq

/-- updateTermSize: re-query the terminal width.  The external width
query is passed in as an optional width (some w for (w, true), none for
a failed query); on success the width is stored, on failure the state is
left untouched. -/
def updateTermSize (q : Option Int) (s : smartStatusOutput) : smartStatusOutput :=
  match q with
  | some w => { s with termWidth := w }
  | none => s

/-- NewSmartStatusOutput: fresh state with a blank line, zero width (the
Go zero value), an open sigwinch channel and an empty sink, followed by
the initial updateTermSize with the given query result. -/
def NewSmartStatusOutput (q : Option Int) : smartStatusOutput :=
  updateTermSize q
    { out := []
      haveBlankLine := true
      termWidth := 0
      sigwinchOpen := true }

/-- requestLine: if the cursor is mid status line, print a newline and
record the blank line. -/
def requestLine (s : smartStatusOutput) : smartStatusOutput :=
  if !s.haveBlankLine then
    { s with out := s.out ++ [NL], haveBlankLine := true }
  else
    s

/-- print: clear a pending status line if any, write the string, and end
it with a newline unless the string already ends in one. -/
def print (str : Bytes) (s : smartStatusOutput) : smartStatusOutput :=
  let s1 :=
    if !s.haveBlankLine then
      { s with out := s.out ++ CR ++ clearEOL, haveBlankLine := true }
    else
      s
  let s2 := { s1 with out := s1.out ++ str }
  if str.length = 0 ∨ str.getLast? ≠ some NL then
    { s2 with out := s2.out ++ [NL] }
  else
    s2

/-- elide: hard cut the string to the terminal width when it is longer. -/
def elide (termWidth : Int) (str : Bytes) : Bytes :=
  if (str.length : Int) > termWidth then
    str.take termWidth.toNat
  else
    str

/-- The truncation strings.IndexRune performs in statusLine: when the
string contains a newline, keep only the bytes before the first one. -/
def indexTrunc (str : Bytes) : Bytes :=
  match str.findIdx? (· == NL) with
  | some idx => str.take idx
  | none => str

/-- statusLine: truncate at the first newline (strings.IndexRune), elide
to the terminal width when the width is positive, then emit carriage
return, bold on, the text, bold off, and clear to end of line, leaving
the cursor mid line. -/
def statusLine (str : Bytes) (s : smartStatusOutput) : smartStatusOutput :=
  let str1 := indexTrunc str
  let str2 := if s.termWidth > 0 then elide s.termWidth str1 else str1
  { s with out := s.out ++ CR ++ boldOn ++ str2 ++ boldOff ++ clearEOL
           haveBlankLine := false }

/-- stopSigwinch: signal.Stop followed by close(s.sigwinch).  Closing a
channel that is already closed panics, modelled by the error value. -/
def stopSigwinch (s : smartStatusOutput) : Except Unit smartStatusOutput :=
  if s.sigwinchOpen then
    Except.ok { s with sigwinchOpen := false }
  else
    Except.error ()

/-- Message: drop the event below the status threshold; print it as a
permanent line above the threshold; make it the status line at the
threshold. -/
def Message (f : Formatter) (level : Int) (msg : Bytes) (s : smartStatusOutput) :
    smartStatusOutput :=
  if level < StatusLvl then
    s
  else
    let str := f.message level msg
    if level > StatusLvl then
      print str s
    else
      statusLine str s

/-- StartAction: the description, falling back to the raw command when
empty, behind the progress string, shown as the status line. -/
def StartAction (f : Formatter) (a : Action) (c : Counts) (s : smartStatusOutput) :
    smartStatusOutput :=
  let str := if a.Description = [] then a.Command else a.Description
  let progress := f.progress c
  statusLine (progress ++ str) s

/-- FinishAction: compose the progress line; with auxiliary output, show
the status line, commit it with requestLine, then print the output; with
no output only update the status line. -/
def FinishAction (f : Formatter) (r : ActionResult) (c : Counts) (s : smartStatusOutput) :
    smartStatusOutput :=
  let str := if r.Description = [] then r.Command else r.Description
  let progress := f.progress c ++ str
  let output := f.result r
  if output ≠ [] then
    print output (requestLine (statusLine progress s))
  else
    statusLine progress s

/-- Flush: stop the sigwinch watcher (panics when called a second time),
then commit any pending status line.  A panic in stopSigwinch propagates
and requestLine is never reached. -/
def Flush (s : smartStatusOutput) : Except Unit smartStatusOutput :=
  match stopSigwinch s with
  | Except.ok s1 => Except.ok (requestLine s1)
  | Except.error e => Except.error e

/-- Write: print the bytes as a permanent line, returning the byte count
and a nil error. -/
def Write (p : Bytes) (s : smartStatusOutput) :
    (Nat × Option Unit) × smartStatusOutput :=
  ((p.length, none), print p s)

/-- The events a caller can apply to the renderer. -/
inductive Op where
  | message (level : Int) (text : Bytes)
  | startAction (a : Action) (c : Counts)
  | finishAction (r : ActionResult) (c : Counts)
  | write (p : Bytes)
  | flush
deriving DecidableEq

/-- One dispatcher step; Flush may panic. -/
def step (f : Formatter) (op : Op) (s : smartStatusOutput) :
    Except Unit smartStatusOutput :=
  match op with
  | .message level text => Except.ok (Message f level text s)
  | .startAction a c => Except.ok (StartAction f a c s)
  | .finishAction r c => Except.ok (FinishAction f r c s)
  | .write p => Except.ok (Write p s).2
  | .flush => Flush s

/-- Run a sequence of events, stopping at the first panic. -/
def run (f : Formatter) : List Op → smartStatusOutput → Except Unit smartStatusOutput
  | [], s => Except.ok s
  | op :: ops, s =>
    match step f op s with
    | Except.ok s1 => run f ops s1
    | Except.error e => Except.error e

/-- The status text actually rendered for an input string: the input cut
at its first newline, then hard cut to the terminal width when the width
is positive. -/
def statusText (w : Int) (str : Bytes) : Bytes :=
  let t := str.takeWhile (· != NL)
  if w > 0 then t.take w.toNat else t

/-- An example formatter used to instantiate the universally quantified
theorems on concrete runs. -/
def exFmt : Formatter where
  message := fun _ t => t
  progress := fun c => [91, 48 + c.done % 10, 47, 48 + c.total % 10, 93, 32]
  result := fun r => r.Output

/-- The blank line invariant: the haveBlankLine flag is set exactly when
the sink contents are empty or end in a newline byte. -/
def blankInv (s : smartStatusOutput) : Prop :=
  s.haveBlankLine = true ↔ (s.out = [] ∨ s.out.getLast? = some NL)

theorem findIdx?_start_shift (p : Nat → Bool) (l : List Nat) (i : Nat) :
    List.findIdx? p l i = (List.findIdx? p l 0).map (· + i) := by
  induction l generalizing i with
  | nil => simp [List.findIdx?]
  | cons a l ih =>
    rw [List.findIdx?_cons, List.findIdx?_cons]
    by_cases h : p a
    · simp [h]
    · simp only [h, if_false, Bool.false_eq_true]
      rw [ih (i + 1), ih (0 + 1)]
      cases hf : List.findIdx? p l 0 with
      | none => simp
      | some j => simp; omega

theorem indexTrunc_eq_takeWhile (str : Bytes) :
    indexTrunc str = str.takeWhile (· != NL) := by
  induction str with
  | nil => rfl
  | cons a l ih =>
    unfold indexTrunc at ih ⊢
    rw [List.findIdx?_cons]
    by_cases h : a = NL
    · simp [h]
    · have hb : (a == NL) = false := by simp [h]
      rw [findIdx?_start_shift]
      simp only [hb, if_false, Bool.false_eq_true, List.takeWhile_cons, bne_iff_ne, ne_eq, h,
        not_false_eq_true, if_true]
      cases hf : List.findIdx? (· == NL) l 0 with
      | none =>
        rw [hf] at ih
        simp [← ih]
      | some j =>
        rw [hf] at ih
        simp only [Option.map_some, Nat.zero_add, List.take_succ_cons]
        rw [← ih]
        simp

theorem elide_pos (w : Int) (hw : 0 < w) (str : Bytes) :
    elide w str = str.take w.toNat := by
  unfold elide
  split
  · rfl
  · next h =>
    have hl : str.length ≤ w.toNat := by omega
    exact (List.take_of_length_le hl).symm

theorem statusLine_out (str : Bytes) (s : smartStatusOutput) :
    (statusLine str s).out
      = s.out ++ CR ++ boldOn ++ statusText s.termWidth str ++ boldOff ++ clearEOL := by
  unfold statusLine statusText
  rw [indexTrunc_eq_takeWhile]
  by_cases h : s.termWidth > 0
  · simp [h, elide_pos s.termWidth h]
  · simp [h]

theorem statusLine_haveBlankLine (str : Bytes) (s : smartStatusOutput) :
    (statusLine str s).haveBlankLine = false := rfl

theorem statusLine_termWidth (str : Bytes) (s : smartStatusOutput) :
    (statusLine str s).termWidth = s.termWidth := rfl

theorem statusLine_sigwinchOpen (str : Bytes) (s : smartStatusOutput) :
    (statusLine str s).sigwinchOpen = s.sigwinchOpen := rfl

theorem print_out (str : Bytes) (s : smartStatusOutput) :
    (print str s).out
      = s.out ++ (if s.haveBlankLine then [] else CR ++ clearEOL) ++ str
          ++ (if str.length = 0 ∨ str.getLast? ≠ some NL then [NL] else []) := by
  unfold print
  by_cases hn : str.length = 0 ∨ str.getLast? ≠ some NL
  · simp only [if_pos hn]
    cases hb : s.haveBlankLine <;> simp [hb, List.append_assoc]
  · simp only [if_neg hn]
    cases hb : s.haveBlankLine <;> simp [hb, List.append_assoc]

theorem print_haveBlankLine (str : Bytes) (s : smartStatusOutput) :
    (print str s).haveBlankLine = true := by
  unfold print
  by_cases hn : str.length = 0 ∨ str.getLast? ≠ some NL
  · simp only [if_pos hn]
    cases hb : s.haveBlankLine <;> simp [hb]
  · simp only [if_neg hn]
    cases hb : s.haveBlankLine <;> simp [hb]

theorem print_getLast (str : Bytes) (s : smartStatusOutput) :
    (print str s).out.getLast? = some NL := by
  rw [print_out]
  by_cases hn : str.length = 0 ∨ str.getLast? ≠ some NL
  · rw [if_pos hn, List.getLast?_concat]
  · rw [if_neg hn, List.append_nil]
    push_neg at hn
    obtain ⟨h1, h2⟩ := hn
    rw [List.getLast?_append, h2]
    rfl

theorem requestLine_of_true (s : smartStatusOutput) (h : s.haveBlankLine = true) :
    requestLine s = s := by
  unfold requestLine
  rw [h]
  rfl

theorem requestLine_of_false (s : smartStatusOutput) (h : s.haveBlankLine = false) :
    requestLine s = { s with out := s.out ++ [NL], haveBlankLine := true } := by
  unfold requestLine
  rw [h]
  rfl

theorem requestLine_sigwinchOpen (s : smartStatusOutput) :
    (requestLine s).sigwinchOpen = s.sigwinchOpen := by
  unfold requestLine
  split <;> rfl

theorem requestLine_blankInv (s : smartStatusOutput) (h : blankInv s) :
    blankInv (requestLine s) := by
  cases hb : s.haveBlankLine
  · rw [requestLine_of_false s hb]
    unfold blankInv
    simp [List.getLast?_concat]
  · rw [requestLine_of_true s hb]
    exact h

theorem print_blankInv (str : Bytes) (s : smartStatusOutput) :
    blankInv (print str s) := by
  unfold blankInv
  rw [print_haveBlankLine, print_getLast]
  simp

theorem statusLine_blankInv (str : Bytes) (s : smartStatusOutput) :
    blankInv (statusLine str s) := by
  have hlast : (statusLine str s).out.getLast? = some 75 := by
    rw [statusLine_out, List.getLast?_append]
    rfl
  have hne : (statusLine str s).out ≠ [] := by
    intro h0
    rw [h0] at hlast
    simp at hlast
  unfold blankInv
  rw [statusLine_haveBlankLine]
  simp only [Bool.false_eq_true, false_iff]
  push_neg
  refine ⟨hne, ?_⟩
  rw [hlast]
  simp [NL]

theorem stopSigwinch_ok (s s1 : smartStatusOutput)
    (h : stopSigwinch s = Except.ok s1) :
    s1 = { s with sigwinchOpen := false } := by
  unfold stopSigwinch at h
  by_cases ho : s.sigwinchOpen = true
  · rw [if_pos ho] at h
    injection h with h
    exact h.symm
  · rw [if_neg ho] at h
    cases h

theorem step_blankInv (f : Formatter) (op : Op) (s s' : smartStatusOutput)
    (h : blankInv s) (hs : step f op s = Except.ok s') : blankInv s' := by
  cases op with
  | message level text =>
    simp only [step] at hs
    injection hs with hs
    subst hs
    unfold Message
    by_cases h1 : level < StatusLvl
    · rw [if_pos h1]
      exact h
    · rw [if_neg h1]
      by_cases h2 : level > StatusLvl
      · simp only [if_pos h2]
        exact print_blankInv _ _
      · simp only [if_neg h2]
        exact statusLine_blankInv _ _
  | startAction a c =>
    simp only [step] at hs
    injection hs with hs
    subst hs
    exact statusLine_blankInv _ _
  | finishAction r c =>
    simp only [step] at hs
    injection hs with hs
    subst hs
    unfold FinishAction
    by_cases h1 : f.result r ≠ []
    · simp only [if_pos h1]
      exact print_blankInv _ _
    · simp only [if_neg h1]
      exact statusLine_blankInv _ _
  | write p =>
    simp only [step] at hs
    injection hs with hs
    subst hs
    exact print_blankInv _ _
  | flush =>
    simp only [step, Flush] at hs
    cases hst : stopSigwinch s with
    | ok s1 =>
      rw [hst] at hs
      injection hs with hs
      subst hs
      apply requestLine_blankInv
      rw [stopSigwinch_ok s s1 hst]
      exact h
    | error e =>
      rw [hst] at hs
      cases hs

theorem run_blankInv (f : Formatter) (ops : List Op) (s s' : smartStatusOutput)
    (h : blankInv s) (hr : run f ops s = Except.ok s') : blankInv s' := by
  induction ops generalizing s with
  | nil =>
    simp only [run] at hr
    injection hr with hr
    subst hr
    exact h
  | cons op ops ih =>
    simp only [run] at hr
    cases hst : step f op s with
    | ok s1 =>
      rw [hst] at hr
      exact ih s1 (step_blankInv f op s s1 h hst) hr
    | error e =>
      rw [hst] at hr
      cases hr

/-- The fifteen byte status text ABCDEFGHIJKLMNO from the spec example. -/
def exStr15 : Bytes := [65, 66, 67, 68, 69, 70, 71, 72, 73, 74, 75, 76, 77, 78, 79]

/-- The first ten bytes ABCDEFGHIJ of the spec example. -/
def exStr10 : Bytes := [65, 66, 67, 68, 69, 70, 71, 72, 73, 74]

/-- An example action result with non-empty auxiliary output. -/
def exResult : ActionResult where
  Description := [100]
  Command := [99]
  Output := [111]

/-- Example progress counts. -/
def exCounts : Counts where
  done := 1
  total := 2

/-- Claim C1, counterexample: running Flush twice from a fresh renderer
panics (the error value models the Go panic raised by closing the
already closed sigwinch channel), so the second Flush is not harmless. -/
theorem C1_counterexample :
    run exFmt [Op.flush, Op.flush] (NewSmartStatusOutput (some 80))
      = Except.error () := by
  rfl

/-- Claim C1, amended: a first successful Flush leaves the sigwinch
subscription closed, and a second Flush panics by closing the already
closed channel; Flush is safe to call exactly once. -/
theorem C1_flush_twice_panics (s s1 : smartStatusOutput)
    (h : Flush s = Except.ok s1) :
    s1.sigwinchOpen = false ∧ Flush s1 = Except.error () := by
  have hopen : s1.sigwinchOpen = false := by
    unfold Flush at h
    cases hst : stopSigwinch s with
    | ok s2 =>
      rw [hst] at h
      injection h with h
      subst h
      rw [requestLine_sigwinchOpen, stopSigwinch_ok s s2 hst]
    | error e =>
      rw [hst] at h
      cases h
  refine ⟨hopen, ?_⟩
  unfold Flush stopSigwinch
  rw [if_neg (by simp [hopen])]

theorem C1_flush_twice_panics_witness :
    ({ out := [], haveBlankLine := true, termWidth := 0,
       sigwinchOpen := false } : smartStatusOutput).sigwinchOpen = false
    ∧ Flush ({ out := [], haveBlankLine := true, termWidth := 0,
               sigwinchOpen := false } : smartStatusOutput) = Except.error () :=
  C1_flush_twice_panics (NewSmartStatusOutput none)
    ({ out := [], haveBlankLine := true, termWidth := 0,
       sigwinchOpen := false } : smartStatusOutput)
    (by rfl)

/-- Claim C2: after any successful sequence of dispatcher events from a
fresh renderer, haveBlankLine holds exactly when the bytes written to
the sink are empty or end in a newline. -/
theorem C2_hasBlankLine_invariant (f : Formatter) (ops : List Op) (q : Option Int)
    (s : smartStatusOutput)
    (h : run f ops (NewSmartStatusOutput q) = Except.ok s) :
    s.haveBlankLine = true ↔ (s.out = [] ∨ s.out.getLast? = some NL) := by
  have h0 : blankInv (NewSmartStatusOutput q) := by
    cases q <;> simp [blankInv, NewSmartStatusOutput, updateTermSize]
  exact run_blankInv f ops _ s h0 h

theorem C2_hasBlankLine_invariant_witness :
    (({ out := [104, 105, 10, 65, 10], haveBlankLine := true, termWidth := 5,
         sigwinchOpen := true } : smartStatusOutput).haveBlankLine = true
      ↔ (({ out := [104, 105, 10, 65, 10], haveBlankLine := true, termWidth := 5,
             sigwinchOpen := true } : smartStatusOutput).out = []
          ∨ ({ out := [104, 105, 10, 65, 10], haveBlankLine := true, termWidth := 5,
                sigwinchOpen := true } : smartStatusOutput).out.getLast? = some NL)) :=
  C2_hasBlankLine_invariant exFmt [Op.message 2 [104, 105], Op.write [65]] (some 5)
    { out := [104, 105, 10, 65, 10], haveBlankLine := true, termWidth := 5,
      sigwinchOpen := true }
    (by rfl)

/-- Claim C3: statusLine truncates the text at its first newline, then
hard cuts it to the terminal width when the width is positive, emits
carriage return, bold on, the text, bold off and clear to end of line in
that order, and leaves haveBlankLine false; with width 10 the fifteen
byte example text renders as its first ten bytes. -/
theorem C3_statusLine_render (str : Bytes) (s : smartStatusOutput) :
    (statusLine str s).out
        = s.out ++ CR ++ boldOn ++ statusText s.termWidth str ++ boldOff ++ clearEOL
      ∧ (statusLine str s).haveBlankLine = false
      ∧ (statusLine exStr15
            { out := [], haveBlankLine := true, termWidth := 10,
              sigwinchOpen := true }).out
          = CR ++ boldOn ++ exStr10 ++ boldOff ++ clearEOL :=
  ⟨statusLine_out str s, statusLine_haveBlankLine str s, by decide⟩

/-- Claim C4: print emits carriage return plus clear to end of line
before the text exactly when haveBlankLine was false on entry, writes
the text verbatim, appends a newline exactly when the text is empty or
lacks a trailing newline, and always leaves haveBlankLine true. -/
theorem C4_printLine_render (str : Bytes) (s : smartStatusOutput) :
    (print str s).out
        = s.out ++ (if s.haveBlankLine then [] else CR ++ clearEOL) ++ str
            ++ (if str.length = 0 ∨ str.getLast? ≠ some NL then [NL] else [])
      ∧ (print str s).haveBlankLine = true :=
  ⟨print_out str s, print_haveBlankLine str s⟩

/-- Claim C5: a message below the status threshold is dropped with no
state change and no bytes written; above the threshold the formatted
text goes through print; at the threshold it goes through statusLine. -/
theorem C5_message_threshold (f : Formatter) (level : Int) (text : Bytes)
    (s : smartStatusOutput) :
    (level < StatusLvl → Message f level text s = s)
    ∧ (StatusLvl < level → Message f level text s = print (f.message level text) s)
    ∧ (level = StatusLvl → Message f level text s = statusLine (f.message level text) s) := by
  refine ⟨fun h1 => ?_, fun h2 => ?_, fun h3 => ?_⟩
  · simp [Message, h1]
  · have hn : ¬level < StatusLvl := by omega
    simp [Message, hn, h2]
  · have hn : ¬level < StatusLvl := by omega
    have hn2 : ¬StatusLvl < level := by omega
    simp [Message, hn, hn2]

theorem C5_message_threshold_witness :
    Message exFmt 0 [72] (NewSmartStatusOutput (some 80)) = NewSmartStatusOutput (some 80)
    ∧ Message exFmt 2 [72] (NewSmartStatusOutput (some 80))
        = print (exFmt.message 2 [72]) (NewSmartStatusOutput (some 80))
    ∧ Message exFmt 1 [72] (NewSmartStatusOutput (some 80))
        = statusLine (exFmt.message 1 [72]) (NewSmartStatusOutput (some 80)) :=
  ⟨(C5_message_threshold exFmt 0 [72] (NewSmartStatusOutput (some 80))).1 (by decide),
   (C5_message_threshold exFmt 2 [72] (NewSmartStatusOutput (some 80))).2.1 (by decide),
   (C5_message_threshold exFmt 1 [72] (NewSmartStatusOutput (some 80))).2.2 (by decide)⟩

/-- Claim C6: with non-empty auxiliary output, FinishAction emits the
progress status line, then the committing newline, then the output as a
permanent line, ending with haveBlankLine true; with empty output only
the status line is emitted and haveBlankLine stays false. -/
theorem C6_finishAction_render (f : Formatter) (r : ActionResult) (c : Counts)
    (s : smartStatusOutput) :
    (f.result r ≠ [] →
      (FinishAction f r c s).out
          = s.out ++ CR ++ boldOn
              ++ statusText s.termWidth
                  (f.progress c
                    ++ (if r.Description = [] then r.Command else r.Description))
              ++ boldOff ++ clearEOL ++ [NL] ++ f.result r
              ++ (if (f.result r).getLast? ≠ some NL then [NL] else [])
        ∧ (FinishAction f r c s).haveBlankLine = true)
    ∧ (f.result r = [] →
      (FinishAction f r c s).out
          = s.out ++ CR ++ boldOn
              ++ statusText s.termWidth
                  (f.progress c
                    ++ (if r.Description = [] then r.Command else r.Description))
              ++ boldOff ++ clearEOL
        ∧ (FinishAction f r c s).haveBlankLine = false) := by
  constructor
  · intro ho
    have h1 : FinishAction f r c s
        = print (f.result r)
            (requestLine
              (statusLine
                (f.progress c
                  ++ (if r.Description = [] then r.Command else r.Description)) s)) := by
      simp only [FinishAction]
      rw [if_pos ho]
    rw [h1]
    refine ⟨?_, print_haveBlankLine _ _⟩
    rw [print_out,
      requestLine_of_false _ (statusLine_haveBlankLine _ s)]
    have hcond : ((f.result r).length = 0 ∨ (f.result r).getLast? ≠ some NL)
        ↔ (f.result r).getLast? ≠ some NL := by
      constructor
      · rintro (h0 | h0)
        · exact absurd (List.length_eq_zero.mp h0) ho
        · exact h0
      · exact Or.inr
    rw [if_congr hcond rfl rfl]
    simp only []
    rw [statusLine_out]
    simp [List.append_assoc]
  · intro ho
    have h1 : FinishAction f r c s
        = statusLine
            (f.progress c
              ++ (if r.Description = [] then r.Command else r.Description)) s := by
      simp only [FinishAction]
      rw [if_neg (by simp [ho])]
    rw [h1]
    exact ⟨statusLine_out _ s, statusLine_haveBlankLine _ s⟩

theorem C6_finishAction_render_witness :
    (FinishAction exFmt exResult exCounts (NewSmartStatusOutput (some 80))).out
        = (NewSmartStatusOutput (some 80)).out ++ CR ++ boldOn
            ++ statusText (NewSmartStatusOutput (some 80)).termWidth
                (exFmt.progress exCounts
                  ++ (if exResult.Description = [] then exResult.Command
                      else exResult.Description))
            ++ boldOff ++ clearEOL ++ [NL] ++ exFmt.result exResult
            ++ (if (exFmt.result exResult).getLast? ≠ some NL then [NL] else [])
      ∧ (FinishAction exFmt exResult exCounts
          (NewSmartStatusOutput (some 80))).haveBlankLine = true :=
  (C6_finishAction_render exFmt exResult exCounts
    (NewSmartStatusOutput (some 80))).1 (by decide)

/-- Claim C7, counterexample: after a successful width query of 10
followed by a resize whose re-query fails, statusLine still truncates
the fifteen byte example text to ten bytes, so a failed width query does
not in general disable truncation. -/
theorem C7_counterexample :
    (statusLine exStr15 (updateTermSize none (NewSmartStatusOutput (some 10)))).out
        = CR ++ boldOn ++ exStr10 ++ boldOff ++ clearEOL
      ∧ exStr10 ≠ exStr15 := by
  constructor
  · decide
  · decide

/-- Claim C7, amended: a width of zero, meaning no width was ever
successfully queried, disables truncation, and this persists through a
resize notification whose re-query fails; a previously stored positive
width, however, is retained by a failed re-query and keeps governing
truncation. -/
theorem C7_no_width_no_truncation (s : smartStatusOutput) (str : Bytes)
    (h : s.termWidth = 0) :
    (NewSmartStatusOutput none).termWidth = 0
    ∧ (updateTermSize none s).termWidth = 0
    ∧ (statusLine str (updateTermSize none s)).out
        = s.out ++ CR ++ boldOn ++ str.takeWhile (· != NL) ++ boldOff ++ clearEOL := by
  have hu : updateTermSize none s = s := rfl
  refine ⟨rfl, by rw [hu]; exact h, ?_⟩
  rw [hu, statusLine_out]
  unfold statusText
  rw [h]
  simp

theorem C7_no_width_no_truncation_witness :
    (NewSmartStatusOutput none).termWidth = 0
    ∧ (updateTermSize none (NewSmartStatusOutput none)).termWidth = 0
    ∧ (statusLine exStr15 (updateTermSize none (NewSmartStatusOutput none))).out
        = (NewSmartStatusOutput none).out ++ CR ++ boldOn
            ++ exStr15.takeWhile (· != NL) ++ boldOff ++ clearEOL :=
  C7_no_width_no_truncation (NewSmartStatusOutput none) exStr15 (by decide)

/-- Claim C8: Write forwards its bytes through print as permanent output
and returns exactly the byte count of the input and a nil error. -/
theorem C8_write_contract (p : Bytes) (s : smartStatusOutput) :
    (Write p s).1 = (p.length, none) ∧ (Write p s).2 = print p s :=
  ⟨rfl, rfl⟩

/-- Claim C9: a failed width query leaves the whole renderer state
unchanged, so an earlier known width keeps governing truncation. -/
theorem C9_updateTermSize_frame (s : smartStatusOutput) (str : Bytes) :
    updateTermSize none s = s
    ∧ statusLine str (updateTermSize none s) = statusLine str s :=
  ⟨rfl, rfl⟩

/-- Claim C10: elide is byte based; when the byte length of the string
exceeds a non-negative width, elide keeps exactly the first width bytes,
otherwise it returns the string unchanged. -/
theorem C10_elide_byte_based (w : Int) (str : Bytes) (h : 0 ≤ w) :
    (w < (str.length : Int) → elide w str = str.take w.toNat)
    ∧ ((str.length : Int) ≤ w → elide w str = str) := by
  constructor
  · intro hl
    unfold elide
    rw [if_pos (by omega)]
  · intro hl
    unfold elide
    rw [if_neg (by omega)]

theorem C10_elide_byte_based_witness :
    elide 3 [65, 66, 195, 169] = [65, 66, 195]
    ∧ elide 5 [65, 66, 195, 169] = [65, 66, 195, 169] :=
  ⟨(C10_elide_byte_based 3 [65, 66, 195, 169] (by decide)).1 (by decide),
   (C10_elide_byte_based 5 [65, 66, 195, 169] (by decide)).2 (by decide)⟩

end SmartStatus
